import Mathlib

/-!
Verification of the `stai` command-line transcription tool
(`src/stai/__init__.py`) against its natural-language specification.

Python strings are embedded as `List Char` (`Str`); Python's `str`
operations used by the source (`find`, slicing, `strip`, `split`,
`startswith`, `in`) are given executable Lean counterparts with the same
semantics.  External effects (subprocess runs, HTTP responses, file
writes, console echoes) are modelled by an explicit `Effect` trace plus
environment records supplying the outcomes of the external calls.
-/

namespace Stai

abbrev Str := List Char

/-- Python `str.startswith(pre)`: `pre` is a prefix of `s`. -/
def pyStartswith (pre s : Str) : Bool := List.isPrefixOf pre s

/-- Auxiliary scan for Python `str.find`: first index `≥ i` (in the
original string) where `sub` occurs as a prefix of the remaining tail,
or `-1`. -/
def pyFindAux (s sub : Str) (i : Nat) : Int :=
  if List.isPrefixOf sub s then (i : Int)
  else
    match s with
    | [] => -1
    | _ :: xs => pyFindAux xs sub (i + 1)

/-- Python `s.find(sub)`: index of the first occurrence of `sub` in `s`,
or `-1` when absent. -/
def pyFind (s sub : Str) : Int := pyFindAux s sub 0

/-- Python `sub in s` membership test (substring containment). -/
def pyContains (s sub : Str) : Bool := pyFind s sub != -1

/-- Python `s.find(sub, start)` with a non-negative `start`. -/
def pyFindFrom (s sub : Str) (start : Nat) : Int :=
  if pyFind (s.drop start) sub = -1 then -1
  else (start : Int) + pyFind (s.drop start) sub

/-- Clamp a (possibly negative) Python slice index to `[0, n]`. -/
def clampIdx (n : Nat) (i : Int) : Nat :=
  if i < 0 then (n - (-i).toNat) else min i.toNat n

/-- Python slice `s[a:b]` (step 1), with Python's negative-index and
out-of-range semantics. -/
def pySlice (s : Str) (a b : Int) : Str :=
  (s.take (clampIdx s.length b)).drop (clampIdx s.length a)

/-- ASCII whitespace stripped by Python `str.strip()`. -/
def pyIsSpace (c : Char) : Bool :=
  c = ' ' || c = '\t' || c = '\n' || c = '\r' || c = '\x0b' || c = '\x0c'

/-- Python `str.strip()`: remove leading and trailing whitespace. -/
def pyStrip (s : Str) : Str :=
  ((s.dropWhile pyIsSpace).reverse.dropWhile pyIsSpace).reverse

/-- Python `s.split(c)` for a one-character separator: split on every
occurrence, keeping empty pieces; never returns an empty list. -/
def splitOnChar (c : Char) : Str → List Str
  | [] => [[]]
  | x :: xs =>
      if x = c then [] :: splitOnChar c xs
      else
        match splitOnChar c xs with
        | [] => [[x]]
        | h :: t => (x :: h) :: t

/-- Python `lst[-1]` on the (never-empty) result of a split. -/
def lastSeg (l : List Str) : Str := (l.getLast?).getD []

/-- Python `"\n".join(lines)`. -/
def joinNL : List Str → Str
  | [] => []
  | [s] => s
  | s :: rest => s ++ '\n' :: joinNL rest

/-! ## Acquisition-mode classification (source lines 19–45) -/

/-- `TranscriptionMode` enumeration from the source. -/
inductive TranscriptionMode where
  | file
  | url
  | youtube
  | notDetermined
deriving DecidableEq, Repr

def ytPrefix1 : Str := "https://www.youtube.com/watch?v=".data
def ytPrefix2 : Str := "https://youtu.be/".data

/-- Python truthiness of an optional string: present and non-empty. -/
def truthy : Option Str → Bool
  | none => false
  | some s => !s.isEmpty

/-- The `_mode` chained-conditional classification at the top of
`transcribe` (source lines 35–45): `if file_path: ... elif url: ...`. -/
def classifyMode (filePath urlArg : Option Str) : TranscriptionMode :=
  if truthy filePath then .file
  else if truthy urlArg then
    let u := urlArg.getD []
    if pyStartswith ytPrefix1 u || pyStartswith ytPrefix2 u then .youtube
    else .url
  else .notDetermined

/-! ## Model catalog (`_get_whisper_models`, source lines 112–125) -/

/-- The `models="` delimiter searched for in the manifest script. -/
def modelsMarker : Str := "models=\"".data

/-- `_get_whisper_models`, applied to the text of the manifest script:
`start = content.find('models="') + 8`, `end = content.find('"', start)`,
then `content[start:end].strip().split('\n')`.  Total: the source raises
nothing in this function. -/
def getWhisperModels (content : Str) : List Str :=
  splitOnChar '\n' (pyStrip (pySlice content
    (pyFind content modelsMarker + 8)
    (pyFindFrom content ['\"'] (pyFind content modelsMarker + 8).toNat)))

/-! ## Transcript extraction (source lines 66–71) -/

def arrowMarker : Str := "-->".data

/-- Shape test of a raw-output line: `line.startswith("[") and "-->" in line`. -/
def captionShape (line : Str) : Bool :=
  pyStartswith ['['] line && pyContains line arrowMarker

/-- Per-line payload: `line.split("]")[-1].strip()`. -/
def captionText (line : Str) : Str := pyStrip (lastSeg (splitOnChar ']' line))

/-- The extraction loop of `transcribe` (source lines 66–69): iterate over
`result.stdout.split("\n")`, appending `line.split("]")[-1].strip()` for
each line passing the shape test. -/
def extractLines (stdout : Str) : List Str :=
  (splitOnChar '\n' stdout).foldl
    (fun acc line => if captionShape line then acc ++ [captionText line] else acc) []

/-- The whole transcript: `"\n".join(transcription_lines)`. -/
def transcriptionOf (stdout : Str) : Str := joinNL (extractLines stdout)

/-- The suffix of a line after its last `]` character; the whole line when
no `]` occurs.  Declarative counterpart (following the spec's words
"everything after the last `]`") of the split-based computation. -/
def afterLastRB : Str → Str
  | [] => []
  | x :: xs =>
      if ']' ∈ xs then afterLastRB xs
      else if x = ']' then xs
      else x :: afterLastRB xs

/-! ## DirectUrl acquisition (`_download_file_from_url`, lines 161–190) -/

/-- An HTTP response: status code and the body as the stream of chunks
yielded by `iter_content(chunk_size=1024)`; the body's bytes are the
concatenation of the chunks. -/
structure HttpResponse where
  status : Nat
  chunks : List (List Nat)
deriving DecidableEq, Repr

/-- `_download_file_from_url` given the response the server produced:
on status 200 the chunk loop writes every non-empty chunk to `filename`
(modelled as one file write holding the concatenation, in arrival
order) and returns `filename`; on any other status it raises
`Exception(f"Failed to download file. Status: {...}")`, modelled as an
error carrying the status code, and performs no write.
Result: (file writes performed, outcome). -/
def downloadFileFromUrl (resp : HttpResponse) (filename : Str) :
    List (Str × List Nat) × Except Nat Str :=
  if resp.status = 200 then
    ([(filename, (resp.chunks.filter (fun c => !c.isEmpty)).flatten)], .ok filename)
  else
    ([], .error resp.status)

/-! ## Orchestrator workflows (`transcribe`, `download_model`) -/

/-- Which external helper script of `whisper.cpp/models` is run. -/
inductive ScriptKind where
  | downloadGgml
  | generateCoreml
deriving DecidableEq, Repr

/-- Observable external effects of a workflow run, in order. Console
messages with fixed text are tagged constructors; interpolated values are
carried as payloads. -/
inductive Effect where
  /-- `typer.echo("Either file_path or youtube_url must be provided.", err=True)` -/
  | echoErrInputRequired
  /-- `typer.echo(f"Model not found. Available models: {models}", err=True)` -/
  | echoErrModelNotFound (available : List Str)
  /-- `_download_file_from_youtube(url, "yt_audio")` external download -/
  | youtubeDownload (url : Str)
  /-- `requests.get(url, ...)` in `_download_file_from_url` -/
  | httpGet (url : Str)
  /-- binary file write performed by the chunk loop of `_download_file_from_url` -/
  | writeBytes (path : Str) (content : List Nat)
  /-- the `subprocess.run` of the whisper-cli inference command -/
  | runWhisper (model : Str) (audioPath : Str)
  /-- text file write of the transcript -/
  | writeText (path : Str) (content : Str)
  /-- `typer.echo(f"Transcription saved to {audio_path}.txt")` -/
  | echoSaved (path : Str)
  /-- `subprocess.run` of a models helper script with the model id -/
  | runScript (which : ScriptKind) (model : Str)
  /-- `typer.echo(f"Successfully downloaded {model}, preparing CoreML model...")` -/
  | echoDownloadedPreparing (model : Str)
  /-- `typer.echo("CoreML model preparation completed successfully")` -/
  | echoCoremlDone
  /-- `typer.echo("CoreML model preparation failed", err=True)` -/
  | echoErrCoremlFailed
  /-- `typer.echo(f"Command failed with return code {e.returncode}", err=True)` -/
  | echoErrCommandFailed (returncode : Int)
deriving DecidableEq, Repr

/-- A `subprocess.run(..., capture_output=True, text=True)` result. -/
structure InvocationResult where
  returncode : Int
  stdout : Str
  stderr : Str
deriving DecidableEq, Repr

/-- Environment for a `transcribe` run: the manifest script's text, the
HTTP response an eventual DirectUrl GET would receive, and the inference
subprocess's result. -/
structure TranscribeEnv where
  manifest : Str
  http : HttpResponse
  inference : InvocationResult
deriving DecidableEq, Repr

/-- Source lines 59–75: run the whisper-cli subprocess on the audio file,
extract the caption lines from its stdout, write the joined transcript to
`<audio_path>.txt` and echo that path.  The subprocess's returncode and
stderr are never read. -/
def inferAndWrite (model audioPath : Str) (inference : InvocationResult) :
    List Effect :=
  let transcription := transcriptionOf inference.stdout
  [.runWhisper model audioPath,
   .writeText (audioPath ++ ".txt".data) transcription,
   .echoSaved (audioPath ++ ".txt".data)]

/-- The `transcribe` command (source lines 29–75).  Returns the effect
trace and `some status` when the run dies with the uncaught download
exception of `_download_file_from_url` (carrying the HTTP status),
`none` when it returns normally. -/
def transcribe (model : Str) (filePath urlArg : Option Str)
    (env : TranscribeEnv) : List Effect × Option Nat :=
  if classifyMode filePath urlArg = .notDetermined then
    ([.echoErrInputRequired], none)
  else if model ∉ getWhisperModels env.manifest then
    ([.echoErrModelNotFound (getWhisperModels env.manifest)], none)
  else
    match classifyMode filePath urlArg with
    | .youtube =>
        -- `_download_file_from_youtube(url, "yt_audio")` returns "yt_audio.wav"
        (.youtubeDownload (urlArg.getD []) ::
           inferAndWrite model "yt_audio.wav".data env.inference, none)
    | .url =>
        match downloadFileFromUrl env.http "url_audio".data with
        | (writes, .error s) =>
            (.httpGet (urlArg.getD []) ::
               writes.map (fun w => Effect.writeBytes w.1 w.2), some s)
        | (writes, .ok audioPath) =>
            (.httpGet (urlArg.getD []) ::
               writes.map (fun w => Effect.writeBytes w.1 w.2) ++
               inferAndWrite model audioPath env.inference, none)
    | _ => (inferAndWrite model (filePath.getD []) env.inference, none)

/-- `subprocess.run(..., check=True)` given the process's exit code:
raises `CalledProcessError` (carrying the returncode) on a non-zero
exit, otherwise returns the completed process's returncode. -/
def runCheck (exitCode : Int) : Except Int Int :=
  if exitCode = 0 then .ok exitCode else .error exitCode

/-- The `download_model` command (source lines 79–98): validate the model
id, run the download script with `check=True`; if it returned 0, echo and
run the CoreML preparation script with `check=True`, echoing its outcome;
a `CalledProcessError` from either run is caught by the surrounding
`try`/`except`, which echoes the return code to the error channel. -/
def downloadModel (model : Str) (manifest : Str) (dlExit cmExit : Int) :
    List Effect :=
  if model ∉ getWhisperModels manifest then
    [.echoErrModelNotFound (getWhisperModels manifest)]
  else
    match runCheck dlExit with
    | .error rc => [.runScript .downloadGgml model, .echoErrCommandFailed rc]
    | .ok rc =>
        .runScript .downloadGgml model ::
        (if rc = 0 then
          .echoDownloadedPreparing model ::
          (match runCheck cmExit with
           | .error rc2 => [.runScript .generateCoreml model, .echoErrCommandFailed rc2]
           | .ok rc2 =>
               .runScript .generateCoreml model ::
               (if rc2 = 0 then [.echoCoremlDone] else [.echoErrCoremlFailed]))
        else [])

end Stai

namespace Stai

/-! ## Lemmas about splitting and extraction -/

theorem foldl_snoc_filter_map (p : Str → Bool) (f : Str → Str) :
    ∀ (lines acc : List Str),
      lines.foldl (fun a line => if p line then a ++ [f line] else a) acc
        = acc ++ (lines.filter p).map f := by
  intro lines
  induction lines with
  | nil => intro acc; simp
  | cons x xs ih =>
      intro acc
      by_cases h : p x <;> simp [List.foldl_cons, h, ih, List.filter_cons]

/-- The extraction loop agrees with the declarative filter-and-map view. -/
theorem extractLines_eq (stdout : Str) :
    extractLines stdout =
      ((splitOnChar '\n' stdout).filter captionShape).map captionText := by
  unfold extractLines
  rw [foldl_snoc_filter_map]
  rfl

theorem splitOnChar_ne_nil (c : Char) (s : Str) : splitOnChar c s ≠ [] := by
  cases s with
  | nil => simp [splitOnChar]
  | cons x xs =>
      by_cases h : x = c
      · simp [splitOnChar, h]
      · simp only [splitOnChar, if_neg h]
        cases splitOnChar c xs <;> simp

theorem splitOnChar_not_mem {c : Char} : ∀ {s : Str}, c ∉ s → splitOnChar c s = [s] := by
  intro s
  induction s with
  | nil => intro _; rfl
  | cons x xs ih =>
      intro h
      have hx : ¬ x = c := fun he => h (by simp [he])
      have hxs : c ∉ xs := fun hm => h (List.mem_cons_of_mem _ hm)
      simp [splitOnChar, hx, ih hxs]

theorem afterLastRB_not_mem : ∀ {s : Str}, ']' ∉ s → afterLastRB s = s := by
  intro s
  induction s with
  | nil => intro _; rfl
  | cons x xs ih =>
      intro h
      have hx : ¬ x = ']' := fun he => h (by simp [he])
      have hxs : ']' ∉ xs := fun hm => h (List.mem_cons_of_mem _ hm)
      simp [afterLastRB, hx, hxs, ih hxs]

theorem splitOnChar_length_two {c : Char} :
    ∀ {s : Str}, c ∈ s → 2 ≤ (splitOnChar c s).length := by
  intro s
  induction s with
  | nil => intro h; cases h
  | cons x xs ih =>
      intro h
      by_cases hx : x = c
      · have h1 : splitOnChar c xs ≠ [] := splitOnChar_ne_nil c xs
        have h2 : 1 ≤ (splitOnChar c xs).length := by
          cases hsp : splitOnChar c xs with
          | nil => exact absurd hsp h1
          | cons a t => simp
        simp only [splitOnChar, if_pos hx, List.length_cons]
        omega
      · have hmem : c ∈ xs := by
          rcases List.mem_cons.mp h with h' | h'
          · exact absurd h'.symm hx
          · exact h'
        have h2 := ih hmem
        simp only [splitOnChar, if_neg hx]
        cases hsp : splitOnChar c xs with
        | nil => exact absurd hsp (splitOnChar_ne_nil c xs)
        | cons a t =>
            rw [hsp] at h2
            simp only [List.length_cons] at h2 ⊢
            omega

theorem lastSeg_cons_cons (a b : Str) (l : List Str) :
    lastSeg (a :: b :: l) = lastSeg (b :: l) := by
  simp [lastSeg, List.getLast?_cons_cons]

theorem lastSeg_cons_of_ne_nil (a : Str) {l : List Str} (h : l ≠ []) :
    lastSeg (a :: l) = lastSeg l := by
  cases l with
  | nil => exact absurd rfl h
  | cons b t => exact lastSeg_cons_cons a b t

/-- `line.split("]")[-1]` is the suffix after the last `]` (the whole line
when `]` does not occur). -/
theorem lastSeg_splitOnChar_rb : ∀ (line : Str),
    lastSeg (splitOnChar ']' line) = afterLastRB line := by
  intro line
  induction line with
  | nil => rfl
  | cons x xs ih =>
      by_cases hx : x = ']'
      · subst hx
        by_cases hm : ']' ∈ xs
        · have h0 : lastSeg ([] :: splitOnChar ']' xs) = lastSeg (splitOnChar ']' xs) :=
            lastSeg_cons_of_ne_nil [] (splitOnChar_ne_nil ']' xs)
          rw [show splitOnChar ']' (']' :: xs) = [] :: splitOnChar ']' xs by
            simp [splitOnChar]]
          rw [h0, ih]
          simp [afterLastRB, hm]
        · rw [show splitOnChar ']' (']' :: xs) = [] :: splitOnChar ']' xs by
            simp [splitOnChar]]
          rw [splitOnChar_not_mem hm]
          simp [lastSeg, afterLastRB, hm]
      · simp only [splitOnChar, if_neg hx]
        cases hsp : splitOnChar ']' xs with
        | nil => exact absurd hsp (splitOnChar_ne_nil ']' xs)
        | cons a t =>
            by_cases hm : ']' ∈ xs
            · have h2 := splitOnChar_length_two hm
              rw [hsp] at h2
              have ht : t ≠ [] := by
                intro he
                rw [he] at h2
                simp at h2
              have e1 : lastSeg ((x :: a) :: t) = lastSeg t := lastSeg_cons_of_ne_nil _ ht
              have e2 : lastSeg (a :: t) = lastSeg t := lastSeg_cons_of_ne_nil _ ht
              rw [e1, ← e2, ← hsp, ih]
              simp [afterLastRB, hm, hx]
            · have := splitOnChar_not_mem hm
              rw [this] at hsp
              have ha : a = xs := by injection hsp with h1 _; exact h1.symm
              have ht : t = [] := by injection hsp with _ h2; exact h2.symm
              subst ha; subst ht
              simp [lastSeg, afterLastRB, hm, hx, afterLastRB_not_mem hm]

theorem captionText_eq (line : Str) :
    captionText line = pyStrip (afterLastRB line) := by
  unfold captionText
  rw [lastSeg_splitOnChar_rb]

/-! ## Lemmas about the manifest parser -/

theorem pyFindAux_cons_of_ne {sub : Str} {x : Char} {s : Str} (i : Nat)
    (h : List.isPrefixOf sub (x :: s) = false) :
    pyFindAux (x :: s) sub i = pyFindAux s sub (i + 1) := by
  rw [show pyFindAux (x :: s) sub i =
      (if List.isPrefixOf sub (x :: s) then (i : Int) else pyFindAux s sub (i + 1))
    from rfl]
  rw [h]
  simp

theorem pyFindAux_quote :
    ∀ (xs : Str) (ys : Str) (i : Nat), '\"' ∉ xs →
      pyFindAux (xs ++ '\"' :: ys) ['\"'] i = ((i + xs.length : Nat) : Int) := by
  intro xs
  induction xs with
  | nil => intro ys i _; simp [pyFindAux, List.isPrefixOf]
  | cons x xs ih =>
      intro ys i h
      have hx : ('\"' == x) = false := by
        refine beq_eq_false_iff_ne.mpr fun he => h ?_
        rw [he]
        exact List.mem_cons_self x xs
      have hxs : '\"' ∉ xs := fun hm => h (List.mem_cons_of_mem _ hm)
      have hpre : List.isPrefixOf ['\"'] (x :: (xs ++ '\"' :: ys)) = false := by
        simp only [List.isPrefixOf, hx, Bool.false_and]
      rw [List.cons_append, pyFindAux_cons_of_ne i hpre, ih ys (i + 1) hxs]
      simp only [List.length_cons]
      push_cast
      omega

theorem pyFind_quote (xs ys : Str) (h : '\"' ∉ xs) :
    pyFind (xs ++ '\"' :: ys) ['\"'] = (xs.length : Int) := by
  unfold pyFind
  have h0 := pyFindAux_quote xs ys 0 h
  simpa using h0

theorem clampIdx_ofNat_le {n k : Nat} (h : k ≤ n) : clampIdx n (k : Int) = k := by
  simp [clampIdx, h]

theorem pySlice_middle (u v w : Str) :
    pySlice (u ++ v ++ w) (u.length : Int) ((u.length + v.length : Nat) : Int) = v := by
  unfold pySlice
  have h1 : u.length ≤ (u ++ v ++ w).length := by
    simp [List.length_append]
  have h2 : u.length + v.length ≤ (u ++ v ++ w).length := by
    simp [List.length_append]
  rw [clampIdx_ofNat_le h2, clampIdx_ofNat_le h1]
  rw [show u.length + v.length = (u ++ v).length by simp]
  rw [show u ++ v ++ w = (u ++ v) ++ w from rfl, List.take_left]
  exact List.drop_left u v

theorem modelsMarker_length : modelsMarker.length = 8 := by decide

/-- Evaluation of `_get_whisper_models` on a manifest whose first
`models="` occurrence delimits a quote-free field `body`. -/
theorem getWhisperModels_structured (pre body post : Str)
    (hfind : pyFind (pre ++ modelsMarker ++ body ++ '\"' :: post) modelsMarker =
      (pre.length : Int))
    (hq : '\"' ∉ body) :
    getWhisperModels (pre ++ modelsMarker ++ body ++ '\"' :: post) =
      splitOnChar '\n' (pyStrip body) := by
  unfold getWhisperModels pyFindFrom
  rw [hfind]
  have e0 : ((pre.length : Int) + 8).toNat = pre.length + 8 := by omega
  rw [e0]
  have edrop : (pre ++ modelsMarker ++ body ++ '\"' :: post).drop (pre.length + 8) =
      body ++ '\"' :: post := by
    rw [show pre ++ modelsMarker ++ body ++ '\"' :: post =
        (pre ++ modelsMarker) ++ (body ++ '\"' :: post) by
      simp [List.append_assoc]]
    rw [show pre.length + 8 = (pre ++ modelsMarker).length by
      simp [List.length_append, modelsMarker_length]]
    exact List.drop_left _ _
  rw [edrop]
  rw [pyFind_quote body post hq]
  rw [if_neg (by omega)]
  have eA : ((pre.length : Int) + 8) = (((pre ++ modelsMarker).length : Nat) : Int) := by
    simp only [List.length_append, modelsMarker_length]
    push_cast
    ring
  have eB : (((pre.length + 8 : Nat) : Int)) + (body.length : Int) =
      (((pre ++ modelsMarker).length + body.length : Nat) : Int) := by
    simp only [List.length_append, modelsMarker_length]
    push_cast
    ring
  rw [eB, eA]
  rw [pySlice_middle (pre ++ modelsMarker) body ('\"' :: post)]

theorem joinNL_not_mem {c : Char} (hc : c ≠ '\n') :
    ∀ {ids : List Str}, (∀ id ∈ ids, c ∉ id) → c ∉ joinNL ids := by
  intro ids
  induction ids with
  | nil => intro _; simp [joinNL]
  | cons s rest ih =>
      intro h
      cases rest with
      | nil => simpa [joinNL] using h s (by simp)
      | cons b t =>
          intro hmem
          rw [show joinNL (s :: b :: t) = s ++ '\n' :: joinNL (b :: t) from rfl] at hmem
          rcases List.mem_append.mp hmem with h1 | h1
          · exact h s (by simp) h1
          · rcases List.mem_cons.mp h1 with h2 | h2
            · exact hc h2
            · exact ih (fun id hid => h id (List.mem_cons_of_mem _ hid)) h2

theorem splitOnChar_append_cons {c : Char} :
    ∀ {a : Str} (rest : Str), c ∉ a →
      splitOnChar c (a ++ c :: rest) = a :: splitOnChar c rest := by
  intro a
  induction a with
  | nil => intro rest _; simp [splitOnChar]
  | cons x a' ih =>
      intro rest h
      have hx : ¬ x = c := fun he => h (by simp [he])
      have ha : c ∉ a' := fun hm => h (List.mem_cons_of_mem _ hm)
      simp only [List.cons_append, splitOnChar, if_neg hx, List.append_eq, ih rest ha]

theorem splitOnChar_joinNL :
    ∀ {ids : List Str}, ids ≠ [] → (∀ id ∈ ids, '\n' ∉ id) →
      splitOnChar '\n' (joinNL ids) = ids := by
  intro ids
  induction ids with
  | nil => intro h _; exact absurd rfl h
  | cons s rest ih =>
      intro _ h
      cases rest with
      | nil => simp [joinNL, splitOnChar_not_mem (h s (by simp))]
      | cons b t =>
          have hs : '\n' ∉ s := h s (by simp)
          rw [show joinNL (s :: b :: t) = s ++ '\n' :: joinNL (b :: t) from rfl]
          rw [splitOnChar_append_cons _ hs]
          rw [ih (by simp) (fun id hid => h id (List.mem_cons_of_mem _ hid))]

/-! ## Lemmas about the chunked download -/

theorem flatten_filter_nonempty (l : List (List Nat)) :
    (l.filter (fun c => !c.isEmpty)).flatten = l.flatten := by
  induction l with
  | nil => rfl
  | cons x xs ih =>
      cases x with
      | nil => simpa [List.filter_cons] using ih
      | cons a t => simp [List.filter_cons, ih]

/-! ## Evaluation lemmas for the `transcribe` workflow -/

theorem transcribe_notDetermined {model : Str} {fp u : Option Str} (env : TranscribeEnv)
    (h : classifyMode fp u = .notDetermined) :
    transcribe model fp u env = ([.echoErrInputRequired], none) := by
  unfold transcribe
  rw [h, if_pos rfl]

theorem transcribe_unknown_model {model : Str} {fp u : Option Str} {env : TranscribeEnv}
    (h1 : classifyMode fp u ≠ .notDetermined)
    (h2 : model ∉ getWhisperModels env.manifest) :
    transcribe model fp u env =
      ([.echoErrModelNotFound (getWhisperModels env.manifest)], none) := by
  unfold transcribe
  rw [if_neg h1, if_pos h2]

theorem transcribe_file {model : Str} {fp u : Option Str} {env : TranscribeEnv}
    (h : classifyMode fp u = .file)
    (h2 : model ∈ getWhisperModels env.manifest) :
    transcribe model fp u env =
      (inferAndWrite model (fp.getD []) env.inference, none) := by
  unfold transcribe
  rw [h, if_neg (by simp), if_neg (not_not_intro h2)]

theorem transcribe_youtube {model : Str} {fp u : Option Str} {env : TranscribeEnv}
    (h : classifyMode fp u = .youtube)
    (h2 : model ∈ getWhisperModels env.manifest) :
    transcribe model fp u env =
      (.youtubeDownload (u.getD []) ::
         inferAndWrite model "yt_audio.wav".data env.inference, none) := by
  unfold transcribe
  rw [h, if_neg (by simp), if_neg (not_not_intro h2)]

theorem transcribe_url_ok {model : Str} {fp u : Option Str} {env : TranscribeEnv}
    (h : classifyMode fp u = .url)
    (h2 : model ∈ getWhisperModels env.manifest)
    (h3 : env.http.status = 200) :
    transcribe model fp u env =
      (.httpGet (u.getD []) ::
         .writeBytes "url_audio".data env.http.chunks.flatten ::
         inferAndWrite model "url_audio".data env.inference, none) := by
  unfold transcribe
  rw [h, if_neg (by simp), if_neg (not_not_intro h2)]
  unfold downloadFileFromUrl
  rw [if_pos h3]
  simp [flatten_filter_nonempty]

theorem transcribe_url_err {model : Str} {fp u : Option Str} {env : TranscribeEnv}
    (h : classifyMode fp u = .url)
    (h2 : model ∈ getWhisperModels env.manifest)
    (h3 : env.http.status ≠ 200) :
    transcribe model fp u env =
      ([.httpGet (u.getD [])], some env.http.status) := by
  unfold transcribe
  rw [h, if_neg (by simp), if_neg (not_not_intro h2)]
  unfold downloadFileFromUrl
  rw [if_neg h3]
  simp

theorem pyStartswith_ne_nil {p t : Str} (hp : p ≠ []) (h : pyStartswith p t = true) :
    t ≠ [] := by
  cases p with
  | nil => exact absurd rfl hp
  | cons a l =>
      cases t with
      | nil => simp [pyStartswith, List.isPrefixOf] at h
      | cons b m => exact List.cons_ne_nil b m

/-! ## Claims -/

/-- C1, counterexample to the claim as stated: with no file path and the
supplied url `""` (which matches neither YouTube prefix), the mode is
NOT_DETERMINED, not DirectUrl — an empty supplied url is falsy in the
source's `elif url:` test, so "any other supplied url selects DirectUrl"
fails. -/
theorem classify_empty_url_counterexample :
    pyStartswith ytPrefix1 [] = false ∧ pyStartswith ytPrefix2 [] = false ∧
    classifyMode none (some []) = TranscriptionMode.notDetermined ∧
    TranscriptionMode.notDetermined ≠ TranscriptionMode.url := by decide

/-- C1 (amended): the acquisition-mode classification is a pure function
of the two optional inputs: a non-empty filePath selects LocalFile (even
when a url is also supplied); otherwise a supplied url starting with one
of the two YouTube prefixes selects YouTube; any other NON-EMPTY supplied
url selects DirectUrl; when no non-empty input is supplied (both absent,
or only empty strings) the mode is Undetermined. -/
theorem classify_mode_classification (fp u : Option Str) :
    (∀ s, fp = some s → s ≠ [] → classifyMode fp u = .file) ∧
    ((∀ s, fp = some s → s = []) → ∀ t, u = some t →
       (pyStartswith ytPrefix1 t = true ∨ pyStartswith ytPrefix2 t = true) →
       classifyMode fp u = .youtube) ∧
    ((∀ s, fp = some s → s = []) → ∀ t, u = some t → t ≠ [] →
       pyStartswith ytPrefix1 t = false → pyStartswith ytPrefix2 t = false →
       classifyMode fp u = .url) ∧
    ((∀ s, fp = some s → s = []) → (∀ t, u = some t → t = []) →
       classifyMode fp u = .notDetermined) := by
  refine ⟨?_, ?_, ?_, ?_⟩
  · intro s hs hne
    subst hs
    cases s with
    | nil => exact absurd rfl hne
    | cons a l => simp [classifyMode, truthy]
  · intro hfp t hu hpre
    subst hu
    have hfpb : truthy fp = false := by
      cases fp with
      | none => rfl
      | some s => rw [hfp s rfl]; rfl
    have ht : t ≠ [] := by
      rcases hpre with h | h
      · exact pyStartswith_ne_nil (by decide) h
      · exact pyStartswith_ne_nil (by decide) h
    have htr : truthy (some t) = true := by simp [truthy, ht]
    unfold classifyMode
    rw [hfpb, htr]
    rcases hpre with h | h <;> simp [h]
  · intro hfp t hu ht hp1 hp2
    subst hu
    have hfpb : truthy fp = false := by
      cases fp with
      | none => rfl
      | some s => rw [hfp s rfl]; rfl
    have htr : truthy (some t) = true := by simp [truthy, ht]
    unfold classifyMode
    rw [hfpb, htr]
    simp [hp1, hp2]
  · intro hfp hu
    have hfpb : truthy fp = false := by
      cases fp with
      | none => rfl
      | some s => rw [hfp s rfl]; rfl
    have hub : truthy u = false := by
      cases u with
      | none => rfl
      | some t => rw [hu t rfl]; rfl
    unfold classifyMode
    rw [hfpb, hub]
    simp

/-- C1 witness: each branch of the amended classification at a concrete
input. -/
theorem classify_mode_classification_witness :
    classifyMode (some "a.wav".data) (some "https://youtu.be/x".data) = .file ∧
    classifyMode none (some "https://youtu.be/x".data) = .youtube ∧
    classifyMode none (some "https://example.com/a.mp3".data) = .url ∧
    classifyMode none none = .notDetermined :=
  ⟨(classify_mode_classification _ _).1 _ rfl (by decide),
   (classify_mode_classification _ _).2.1 (by simp) _ rfl (Or.inr (by decide)),
   (classify_mode_classification _ _).2.2.1 (by simp) _ rfl (by decide) (by decide)
     (by decide),
   (classify_mode_classification _ _).2.2.2 (by simp) (by simp)⟩

/-- C2: transcript extraction splits the raw output into lines, keeps
exactly the lines beginning with `[` and containing the substring
followed by the arrow marker, maps each kept line to the text after its
last right bracket with surrounding whitespace stripped, and (joined by
single newlines) the documented example yields exactly the two caption
payloads.  Determinism is inherent: `extractLines` and `transcriptionOf`
are functions of the raw output alone. -/
theorem transcript_extraction_characterization :
    (∀ raw : Str, extractLines raw =
        ((splitOnChar '\n' raw).filter
            (fun line => pyStartswith ['['] line && pyContains line arrowMarker)).map
          (fun line => pyStrip (afterLastRB line))) ∧
    transcriptionOf ("[00:00:00.000 --> 00:00:02.000]  hello world\n" ++
        "some noise\n[00:00:02.000 --> 00:00:04.000]  second line").data =
      "hello world\nsecond line".data := by
  constructor
  · intro raw
    rw [extractLines_eq,
        show captionText = fun line => pyStrip (afterLastRB line) from
          funext captionText_eq]
    rfl
  · decide

/-- C3, counterexample to the claim as stated: on the manifest text
`hello world`, which does not contain the `models="` marker, the listing
returns the model sequence `["orl"]` instead of failing — the source's
`find` yields `-1`, `start` becomes `7`, and no error of any kind is
raised (`_get_whisper_models` is total). -/
theorem manifest_missing_marker_counterexample :
    pyContains "hello world".data modelsMarker = false ∧
    getWhisperModels "hello world".data = [['o', 'r', 'l']] := by decide

/-- C3 (amended): for every manifest text missing the `models="` marker,
listing the models does NOT fail: `find` returns `-1`, so the function
returns the newline-split of the stripped slice `content[7:end]`, where
`end` is the position of the first `"` at or after index 7 (or `-1`,
slicing off the last character). No ManifestFormatError exists in the
code. -/
theorem manifest_missing_marker_no_failure (content : Str)
    (h : pyContains content modelsMarker = false) :
    getWhisperModels content =
      splitOnChar '\n' (pyStrip (pySlice content 7 (pyFindFrom content ['\"'] 7))) := by
  have hf : pyFind content modelsMarker = -1 := by
    unfold pyContains at h
    simpa using h
  unfold getWhisperModels
  rw [hf]
  norm_num
  rfl

/-- C3 witness: the amended statement applied to the concrete marker-less
manifest `hello world`. -/
theorem manifest_missing_marker_no_failure_witness :
    getWhisperModels "hello world".data =
      splitOnChar '\n' (pyStrip (pySlice "hello world".data 7
        (pyFindFrom "hello world".data ['\"'] 7))) :=
  manifest_missing_marker_no_failure _ (by decide)

/-- C4: in every `transcribe` run that reaches inference (a determined
mode, a known model, and — in DirectUrl mode — a 200 download), the
subprocess's exit status is never inspected: the run raises no error, its
trace ends by running the engine, writing the (possibly empty) extracted
transcript to `<audioPath>.txt` and echoing that path, and replacing the
inference exit code and stderr by anything leaves the whole behaviour
unchanged. -/
theorem inference_exit_status_never_inspected (model : Str) (fp u : Option Str)
    (env : TranscribeEnv)
    (h1 : classifyMode fp u ≠ .notDetermined)
    (h2 : model ∈ getWhisperModels env.manifest)
    (h3 : classifyMode fp u = .url → env.http.status = 200) :
    (∃ pre audioPath, transcribe model fp u env =
        (pre ++ [.runWhisper model audioPath,
                 .writeText (audioPath ++ ".txt".data)
                   (transcriptionOf env.inference.stdout),
                 .echoSaved (audioPath ++ ".txt".data)], none)) ∧
    (∀ rc err, transcribe model fp u
        ⟨env.manifest, env.http, ⟨rc, env.inference.stdout, err⟩⟩ =
      transcribe model fp u env) := by
  cases hm : classifyMode fp u with
  | notDetermined => exact absurd hm h1
  | file =>
      refine ⟨⟨[], fp.getD [], ?_⟩, ?_⟩
      · rw [transcribe_file hm h2]
        rfl
      · intro rc err
        rw [@transcribe_file model fp u
              ⟨env.manifest, env.http, ⟨rc, env.inference.stdout, err⟩⟩ hm h2,
            transcribe_file hm h2]
        rfl
  | youtube =>
      refine ⟨⟨[.youtubeDownload (u.getD [])], "yt_audio.wav".data, ?_⟩, ?_⟩
      · rw [transcribe_youtube hm h2]
        rfl
      · intro rc err
        rw [@transcribe_youtube model fp u
              ⟨env.manifest, env.http, ⟨rc, env.inference.stdout, err⟩⟩ hm h2,
            transcribe_youtube hm h2]
        rfl
  | url =>
      have hs := h3 hm
      refine ⟨⟨[.httpGet (u.getD []),
                .writeBytes "url_audio".data env.http.chunks.flatten],
               "url_audio".data, ?_⟩, ?_⟩
      · rw [transcribe_url_ok hm h2 hs]
        rfl
      · intro rc err
        rw [@transcribe_url_ok model fp u
              ⟨env.manifest, env.http, ⟨rc, env.inference.stdout, err⟩⟩ hm h2 hs,
            transcribe_url_ok hm h2 hs]
        rfl

/-- C4 witness: a LocalFile run with a failing engine (exit 1, noise on
stderr, unusable stdout) still writes the empty transcript and reports
the output path. -/
theorem inference_exit_status_never_inspected_witness :
    (∃ pre audioPath, transcribe "a".data (some "f.wav".data) none
        ⟨"models=\"a\"".data, ⟨200, []⟩, ⟨1, "boom".data, "err".data⟩⟩ =
        (pre ++ [.runWhisper "a".data audioPath,
                 .writeText (audioPath ++ ".txt".data)
                   (transcriptionOf "boom".data),
                 .echoSaved (audioPath ++ ".txt".data)], none)) ∧
    (∀ rc err, transcribe "a".data (some "f.wav".data) none
        ⟨"models=\"a\"".data, ⟨200, []⟩, ⟨rc, "boom".data, err⟩⟩ =
      transcribe "a".data (some "f.wav".data) none
        ⟨"models=\"a\"".data, ⟨200, []⟩, ⟨1, "boom".data, "err".data⟩⟩) :=
  inference_exit_status_never_inspected "a".data (some "f.wav".data) none
    ⟨"models=\"a\"".data, ⟨200, []⟩, ⟨1, "boom".data, "err".data⟩⟩
    (by decide) (by decide) (by decide)

/-- C5: for every DirectUrl acquisition, a 200 response writes the
response body (the concatenation of its chunks) to the file
byte-for-byte and returns the file name; any other status yields the
error carrying the status code and performs no file write. -/
theorem direct_url_download_semantics (resp : HttpResponse) (filename : Str) :
    (resp.status = 200 →
       downloadFileFromUrl resp filename =
         ([(filename, resp.chunks.flatten)], .ok filename)) ∧
    (resp.status ≠ 200 →
       downloadFileFromUrl resp filename = ([], .error resp.status)) := by
  constructor
  · intro h
    unfold downloadFileFromUrl
    rw [if_pos h, flatten_filter_nonempty]
  · intro h
    unfold downloadFileFromUrl
    rw [if_neg h]

/-- C5 witness: a 200 response with an empty keep-alive chunk streams
exactly the body bytes; a 404 response errors with 404 and writes
nothing. -/
theorem direct_url_download_semantics_witness :
    downloadFileFromUrl ⟨200, [[1], [], [2, 3]]⟩ "url_audio".data =
      ([("url_audio".data, [1, 2, 3])], .ok "url_audio".data) ∧
    downloadFileFromUrl ⟨404, [[1]]⟩ "url_audio".data = ([], .error 404) :=
  ⟨(direct_url_download_semantics ⟨200, [[1], [], [2, 3]]⟩ "url_audio".data).1 rfl,
   (direct_url_download_semantics ⟨404, [[1]]⟩ "url_audio".data).2 (by decide)⟩

/-- C6: for every model id not in the catalog's listed sequence, the
`transcribe` workflow's entire trace is a single error echo (the input
error when no mode was determined, otherwise the model-not-found error)
and it returns normally: no acquisition, no inference invocation, no
file write. -/
theorem unknown_model_aborts_before_side_effects (model : Str) (fp u : Option Str)
    (env : TranscribeEnv)
    (h : model ∉ getWhisperModels env.manifest) :
    transcribe model fp u env = ([.echoErrInputRequired], none) ∨
    transcribe model fp u env =
      ([.echoErrModelNotFound (getWhisperModels env.manifest)], none) := by
  by_cases hm : classifyMode fp u = .notDetermined
  · exact Or.inl (transcribe_notDetermined env hm)
  · exact Or.inr (transcribe_unknown_model hm h)

/-- C6 witness: requesting the unknown model `zz` against a catalog
holding only `a` produces only an error echo. -/
theorem unknown_model_aborts_before_side_effects_witness :
    transcribe "zz".data (some "f.wav".data) none
        ⟨"models=\"a\"".data, ⟨200, []⟩, ⟨0, [], []⟩⟩ =
      ([.echoErrInputRequired], none) ∨
    transcribe "zz".data (some "f.wav".data) none
        ⟨"models=\"a\"".data, ⟨200, []⟩, ⟨0, [], []⟩⟩ =
      ([.echoErrModelNotFound [['a']]], none) :=
  unknown_model_aborts_before_side_effects "zz".data (some "f.wav".data) none
    ⟨"models=\"a\"".data, ⟨200, []⟩, ⟨0, [], []⟩⟩ (by decide)

/-- C7: with neither a file path nor a URL supplied, `transcribe` echoes
the input error and returns with no acquisition, no inference invocation
and no file write — the trace is exactly that single error echo, for
every model and environment. -/
theorem no_input_reports_error_without_side_effects (model : Str)
    (env : TranscribeEnv) :
    transcribe model none none env = ([.echoErrInputRequired], none) :=
  transcribe_notDetermined env rfl

/-- C8: in `download_model` with a known model id, a non-zero exit of the
download script surfaces as the echoed command-failure (and the CoreML
script is not run); after a zero download exit the success of stage one
is echoed and the CoreML script runs, its non-zero exit surfacing as its
own echoed command-failure, its zero exit as the completion message —
each stage reported independently, no failure swallowed. -/
theorem download_model_stage_reporting (model manifest : Str) (dlExit cmExit : Int)
    (hm : model ∈ getWhisperModels manifest) :
    (dlExit ≠ 0 →
       downloadModel model manifest dlExit cmExit =
         [.runScript .downloadGgml model, .echoErrCommandFailed dlExit]) ∧
    (dlExit = 0 → cmExit ≠ 0 →
       downloadModel model manifest dlExit cmExit =
         [.runScript .downloadGgml model, .echoDownloadedPreparing model,
          .runScript .generateCoreml model, .echoErrCommandFailed cmExit]) ∧
    (dlExit = 0 → cmExit = 0 →
       downloadModel model manifest dlExit cmExit =
         [.runScript .downloadGgml model, .echoDownloadedPreparing model,
          .runScript .generateCoreml model, .echoCoremlDone]) := by
  unfold downloadModel runCheck
  rw [if_neg (not_not_intro hm)]
  refine ⟨?_, ?_, ?_⟩
  · intro h
    rw [if_neg h]
  · intro h h2
    subst h
    rw [if_pos rfl, if_neg h2]
    simp
  · intro h h2
    subst h
    subst h2
    simp

/-- C8 witness: the three stage outcomes at concrete exit codes. -/
theorem download_model_stage_reporting_witness :
    downloadModel "a".data "models=\"a\"".data 1 0 =
      [.runScript .downloadGgml "a".data, .echoErrCommandFailed 1] ∧
    downloadModel "a".data "models=\"a\"".data 0 2 =
      [.runScript .downloadGgml "a".data, .echoDownloadedPreparing "a".data,
       .runScript .generateCoreml "a".data, .echoErrCommandFailed 2] ∧
    downloadModel "a".data "models=\"a\"".data 0 0 =
      [.runScript .downloadGgml "a".data, .echoDownloadedPreparing "a".data,
       .runScript .generateCoreml "a".data, .echoCoremlDone] :=
  ⟨(download_model_stage_reporting "a".data "models=\"a\"".data 1 0 (by decide)).1
      (by decide),
   (download_model_stage_reporting "a".data "models=\"a\"".data 0 2 (by decide)).2.1
      rfl (by decide),
   (download_model_stage_reporting "a".data "models=\"a\"".data 0 0 (by decide)).2.2
      rfl rfl⟩

/-- C9: reading a manifest is a round-trip on the model list — when the
first `models="` occurrence delimits a quote-free, whitespace-trimmed,
newline-joined identifier list, `_get_whisper_models` returns exactly
that ordered sequence of identifiers. -/
theorem manifest_models_roundtrip (pre post : Str) (ids : List Str)
    (hfind : pyFind (pre ++ modelsMarker ++ joinNL ids ++ '\"' :: post) modelsMarker =
      (pre.length : Int))
    (hids : ids ≠ [])
    (hq : ∀ id ∈ ids, '\"' ∉ id ∧ '\n' ∉ id)
    (hstrip : pyStrip (joinNL ids) = joinNL ids) :
    getWhisperModels (pre ++ modelsMarker ++ joinNL ids ++ '\"' :: post) = ids := by
  rw [getWhisperModels_structured pre (joinNL ids) post hfind
      (joinNL_not_mem (by decide) fun id hid => (hq id hid).1)]
  rw [hstrip]
  exact splitOnChar_joinNL hids fun id hid => (hq id hid).2

/-- C9 witness: the manifest `models="a\nb\nc"` yields exactly
`["a", "b", "c"]`. -/
theorem manifest_models_roundtrip_witness :
    getWhisperModels "models=\"a\nb\nc\"".data = [['a'], ['b'], ['c']] := by
  have e : "models=\"a\nb\nc\"".data =
      [] ++ modelsMarker ++ joinNL [['a'], ['b'], ['c']] ++ '\"' :: [] := by decide
  rw [e]
  exact manifest_models_roundtrip [] [] [['a'], ['b'], ['c']] (by decide) (by decide)
    (by decide) (by decide)

/-- C10: a raw-output line that begins with `[` and contains the arrow
marker but has no `]` character is not dropped: extraction emits the
whole line, whitespace-stripped, and indeed `line.split("]")[-1]` is the
entire line when `]` is absent. -/
theorem bracketless_caption_line_kept (line raw : Str)
    (h1 : pyStartswith ['['] line = true)
    (h2 : pyContains line arrowMarker = true)
    (h3 : ']' ∉ line)
    (h4 : line ∈ splitOnChar '\n' raw) :
    pyStrip line ∈ extractLines raw ∧ lastSeg (splitOnChar ']' line) = line := by
  have hseg : lastSeg (splitOnChar ']' line) = line := by
    rw [splitOnChar_not_mem h3]
    simp [lastSeg]
  refine ⟨?_, hseg⟩
  rw [extractLines_eq]
  refine List.mem_map.mpr ⟨line, List.mem_filter.mpr ⟨h4, ?_⟩, ?_⟩
  · simp [captionShape, h1, h2]
  · unfold captionText
    rw [hseg]

/-- C10 witness: a malformed caption line with no closing bracket inside
a raw output is kept whole (stripped). -/
theorem bracketless_caption_line_kept_witness :
    pyStrip "[00:00 --> 00:01 broken".data ∈
      extractLines "noise\n[00:00 --> 00:01 broken".data ∧
    lastSeg (splitOnChar ']' "[00:00 --> 00:01 broken".data) =
      "[00:00 --> 00:01 broken".data :=
  bracketless_caption_line_kept "[00:00 --> 00:01 broken".data
    "noise\n[00:00 --> 00:01 broken".data
    (by decide) (by decide) (by decide) (by decide)

end Stai
